import Mathlib

/-
Verification development for the ScreenSafe hybrid PII-detection pipeline.

The embedding models, at the level of JavaScript runtime semantics:
  - the JSON value space produced by JSON.parse (`Json`);
  - the structured-output extractor and heuristic fallback of
    PIIDetector.analyzeDescription (example/src/services/PIIDetector.ts);
  - the hybrid arbiter HybridInference.analyze
    (example/src/services/HybridInference.ts);
  - the redaction-region generator ImageRedactor.getRedactionRegions.

Strings are modelled as lists of characters so that every operation is a
structurally recursive, kernel-computable function.  JavaScript regular
expressions used by the source are compiled by hand into character-list
scanners that reproduce their match semantics on the character classes
involved (the JS whitespace class is modelled by its ASCII members; all
inputs exercised concretely are ASCII).
-/

namespace ScreenSafe

/-- JavaScript runtime values produced by JSON.parse.  Numbers are modelled
as exact rationals; JSON floats are a subset of the rationals, and the
pipeline never performs arithmetic on parsed numbers, so this is faithful
for every observation the code makes (including truthiness tests). -/
inductive Json where
  | null : Json
  | bool : Bool → Json
  | num : Rat → Json
  | str : String → Json
  | arr : List Json → Json
  | obj : List (String × Json) → Json
deriving Repr

/-- Decidable equality on JSON values (written by hand because the
automatic derivation does not handle the nested `List` occurrences). -/
def Json.decEq : (a b : Json) → Decidable (a = b)
  | Json.null, Json.null => isTrue rfl
  | Json.bool a, Json.bool b =>
    match instDecidableEqBool a b with
    | isTrue h => isTrue (h ▸ rfl)
    | isFalse h => isFalse (fun hh => h (by injection hh))
  | Json.num a, Json.num b =>
    match (inferInstance : DecidableEq Rat) a b with
    | isTrue h => isTrue (h ▸ rfl)
    | isFalse h => isFalse (fun hh => h (by injection hh))
  | Json.str a, Json.str b =>
    match String.decEq a b with
    | isTrue h => isTrue (h ▸ rfl)
    | isFalse h => isFalse (fun hh => h (by injection hh))
  | Json.arr xs, Json.arr ys =>
    match goList xs ys with
    | isTrue h => isTrue (h ▸ rfl)
    | isFalse h => isFalse (fun hh => h (by injection hh))
  | Json.obj xs, Json.obj ys =>
    match goFields xs ys with
    | isTrue h => isTrue (h ▸ rfl)
    | isFalse h => isFalse (fun hh => h (by injection hh))
  | Json.null, Json.bool _ => isFalse (fun h => Json.noConfusion h)
  | Json.null, Json.num _ => isFalse (fun h => Json.noConfusion h)
  | Json.null, Json.str _ => isFalse (fun h => Json.noConfusion h)
  | Json.null, Json.arr _ => isFalse (fun h => Json.noConfusion h)
  | Json.null, Json.obj _ => isFalse (fun h => Json.noConfusion h)
  | Json.bool _, Json.null => isFalse (fun h => Json.noConfusion h)
  | Json.bool _, Json.num _ => isFalse (fun h => Json.noConfusion h)
  | Json.bool _, Json.str _ => isFalse (fun h => Json.noConfusion h)
  | Json.bool _, Json.arr _ => isFalse (fun h => Json.noConfusion h)
  | Json.bool _, Json.obj _ => isFalse (fun h => Json.noConfusion h)
  | Json.num _, Json.null => isFalse (fun h => Json.noConfusion h)
  | Json.num _, Json.bool _ => isFalse (fun h => Json.noConfusion h)
  | Json.num _, Json.str _ => isFalse (fun h => Json.noConfusion h)
  | Json.num _, Json.arr _ => isFalse (fun h => Json.noConfusion h)
  | Json.num _, Json.obj _ => isFalse (fun h => Json.noConfusion h)
  | Json.str _, Json.null => isFalse (fun h => Json.noConfusion h)
  | Json.str _, Json.bool _ => isFalse (fun h => Json.noConfusion h)
  | Json.str _, Json.num _ => isFalse (fun h => Json.noConfusion h)
  | Json.str _, Json.arr _ => isFalse (fun h => Json.noConfusion h)
  | Json.str _, Json.obj _ => isFalse (fun h => Json.noConfusion h)
  | Json.arr _, Json.null => isFalse (fun h => Json.noConfusion h)
  | Json.arr _, Json.bool _ => isFalse (fun h => Json.noConfusion h)
  | Json.arr _, Json.num _ => isFalse (fun h => Json.noConfusion h)
  | Json.arr _, Json.str _ => isFalse (fun h => Json.noConfusion h)
  | Json.arr _, Json.obj _ => isFalse (fun h => Json.noConfusion h)
  | Json.obj _, Json.null => isFalse (fun h => Json.noConfusion h)
  | Json.obj _, Json.bool _ => isFalse (fun h => Json.noConfusion h)
  | Json.obj _, Json.num _ => isFalse (fun h => Json.noConfusion h)
  | Json.obj _, Json.str _ => isFalse (fun h => Json.noConfusion h)
  | Json.obj _, Json.arr _ => isFalse (fun h => Json.noConfusion h)
where
  goList : (xs ys : List Json) → Decidable (xs = ys)
    | [], [] => isTrue rfl
    | x :: xs, y :: ys =>
      match Json.decEq x y, goList xs ys with
      | isTrue h1, isTrue h2 => isTrue (by rw [h1, h2])
      | isFalse h1, _ => isFalse (fun hh => h1 (by injection hh))
      | _, isFalse h2 => isFalse (fun hh => h2 (by injection hh))
    | [], _ :: _ => isFalse (fun h => List.noConfusion h)
    | _ :: _, [] => isFalse (fun h => List.noConfusion h)
  goFields : (xs ys : List (String × Json)) → Decidable (xs = ys)
    | [], [] => isTrue rfl
    | (k1, v1) :: xs, (k2, v2) :: ys =>
      match String.decEq k1 k2, Json.decEq v1 v2, goFields xs ys with
      | isTrue hk, isTrue hv, isTrue ht => isTrue (by rw [hk, hv, ht])
      | isFalse hk, _, _ =>
        isFalse (fun hh => hk (congrArg (fun l => (l.headD ("", Json.null)).1) hh))
      | _, isFalse hv, _ =>
        isFalse (fun hh => hv (congrArg (fun l => (l.headD ("", Json.null)).2) hh))
      | _, _, isFalse ht => isFalse (fun hh => ht (by injection hh))
    | [], _ :: _ => isFalse (fun h => List.noConfusion h)
    | _ :: _, [] => isFalse (fun h => List.noConfusion h)

instance : DecidableEq Json := Json.decEq

/-- Property access `o[k]` on a JS object built by JSON.parse: with
duplicate keys the later field wins; access on a non-object yields
undefined, modelled as `none`. -/
def Json.getField : Json → String → Option Json
  | Json.obj fs, k => fs.foldl (fun acc p => if p.1 = k then some p.2 else acc) none
  | _, _ => none

/-- The check `v === true` on an optional JS value. -/
def jsonEqTrue : Option Json → Bool
  | some (Json.bool true) => true
  | _ => false

/-- JS truthiness of a value (null, false, 0, and the empty string are
falsy; every object and array is truthy). -/
def jsTruthy : Json → Bool
  | Json.null => false
  | Json.bool b => b
  | Json.num q => decide (q ≠ 0)
  | Json.str s => decide (s ≠ "")
  | Json.arr _ => true
  | Json.obj _ => true

/-- The check `typeof v === "object"` (true for null, arrays and objects). -/
def isObjectLike : Json → Bool
  | Json.null => true
  | Json.arr _ => true
  | Json.obj _ => true
  | _ => false

/- Character-list string primitives mirroring the JS string methods used
by the source. -/

/-- ASCII members of the JS whitespace class `\s`. -/
def isJsWs (c : Char) : Bool :=
  c = ' ' || c = '\t' || c = '\n' || c = '\r' || c = '\x0b' || c = '\x0c'

/-- Whitespace accepted between JSON tokens by JSON.parse. -/
def isJsonWs (c : Char) : Bool :=
  c = ' ' || c = '\t' || c = '\n' || c = '\r'

/-- Does `s` start with `pat`? -/
def startsWithL : List Char → List Char → Bool
  | _, [] => true
  | [], _ :: _ => false
  | a :: as, b :: bs => a = b && startsWithL as bs

/-- JS `s.includes(pat)` (true for the empty pattern). -/
def containsSub (s pat : List Char) : Bool :=
  match s with
  | [] => startsWithL [] pat
  | c :: rest => startsWithL (c :: rest) pat || containsSub rest pat

/-- JS `s.indexOf(pat)` returning `none` for -1. -/
def indexOfSub (s pat : List Char) : Option Nat :=
  match s with
  | [] => if startsWithL [] pat then some 0 else none
  | c :: rest =>
    if startsWithL (c :: rest) pat then some 0
    else (indexOfSub rest pat).map (· + 1)

/-- JS `s.lastIndexOf(pat)` returning `none` for -1. -/
def lastIndexOfSub (s pat : List Char) : Option Nat :=
  match s with
  | [] => if startsWithL [] pat then some 0 else none
  | c :: rest =>
    match (lastIndexOfSub rest pat).map (· + 1) with
    | some i => some i
    | none => if startsWithL (c :: rest) pat then some 0 else none

/-- JS `s.indexOf(ch)` for a single character. -/
def indexOfChar (s : List Char) (ch : Char) : Option Nat :=
  indexOfSub s [ch]

/-- JS `s.lastIndexOf(ch)` for a single character. -/
def lastIndexOfChar (s : List Char) (ch : Char) : Option Nat :=
  lastIndexOfSub s [ch]

/-- JS `s.trim()` (whitespace modelled by its ASCII members). -/
def jsTrim (s : List Char) : List Char :=
  ((s.dropWhile isJsWs).reverse.dropWhile isJsWs).reverse

/-- JS `s.toLowerCase()` on ASCII text. -/
def toLowerL (s : List Char) : List Char :=
  s.map Char.toLower

/-- JS `s.substring(i, j)` for `i ≤ j`. -/
def substringL (s : List Char) (i j : Nat) : List Char :=
  (s.drop i).take (j - i)

/- A strict JSON parser modelling `JSON.parse`.  Recursion is bounded by a
fuel parameter that the top-level wrapper instantiates generously; a valid
document never exhausts it on the inputs the development evaluates. -/

/-- Value of a hexadecimal digit. -/
def hexVal (c : Char) : Option Nat :=
  if '0' ≤ c ∧ c ≤ '9' then some (c.toNat - '0'.toNat)
  else if 'a' ≤ c ∧ c ≤ 'f' then some (c.toNat - 'a'.toNat + 10)
  else if 'A' ≤ c ∧ c ≤ 'F' then some (c.toNat - 'A'.toNat + 10)
  else none

/-- Numeric value of a list of decimal digits. -/
def digitsToNat (ds : List Char) : Nat :=
  ds.foldl (fun a c => a * 10 + (c.toNat - '0'.toNat)) 0

def skipJsonWs (s : List Char) : List Char :=
  s.dropWhile isJsonWs

/-- Parse the body of a JSON string after the opening quote, yielding the
decoded content and the remainder after the closing quote.  Unescaped
control characters are rejected, as `JSON.parse` rejects them.  (Surrogate
pairs are decoded as two code units, which the pipeline never observes.) -/
def parseJString : Nat → List Char → Option (List Char × List Char)
  | 0, _ => none
  | _, [] => none
  | fuel + 1, c :: r =>
    if c = '"' then some ([], r)
    else if c = '\\' then
      match r with
      | [] => none
      | e :: r2 =>
        let cont := fun (ch : Char) (rest : List Char) =>
          (parseJString fuel rest).map (fun p => (ch :: p.1, p.2))
        if e = '"' then cont '"' r2
        else if e = '\\' then cont '\\' r2
        else if e = '/' then cont '/' r2
        else if e = 'b' then cont (Char.ofNat 8) r2
        else if e = 'f' then cont (Char.ofNat 12) r2
        else if e = 'n' then cont '\n' r2
        else if e = 'r' then cont '\r' r2
        else if e = 't' then cont '\t' r2
        else if e = 'u' then
          match r2 with
          | h1 :: h2 :: h3 :: h4 :: r3 =>
            match hexVal h1, hexVal h2, hexVal h3, hexVal h4 with
            | some a, some b, some c2, some d =>
              cont (Char.ofNat (((a * 16 + b) * 16 + c2) * 16 + d)) r3
            | _, _, _, _ => none
          | _ => none
        else none
    else if c.toNat < 32 then none
    else (parseJString fuel r).map (fun p => (c :: p.1, p.2))

/-- Parse a JSON number starting at the current position (`-` or a digit).
The exact rational value is computed; JSON forbids leading zeros and
requires at least one digit in each part, as does this parser. -/
def parseJNumber (s : List Char) : Option (Rat × List Char) :=
  let signed : Bool × List Char :=
    match s with
    | '-' :: r => (true, r)
    | _ => (false, s)
  let neg := signed.1
  let s1 := signed.2
  match s1 with
  | [] => none
  | c :: r =>
    let intPart : Option (Nat × List Char) :=
      if c = '0' then
        match r with
        | d :: _ => if d.isDigit then none else some (0, r)
        | [] => some (0, [])
      else if c.isDigit then
        let p := (c :: r).span Char.isDigit
        some (digitsToNat p.1, p.2)
      else none
    match intPart with
    | none => none
    | some (ip, rest1) =>
      let fracPart : Option (Rat × List Char) :=
        match rest1 with
        | '.' :: r2 =>
          let p := r2.span Char.isDigit
          if p.1.isEmpty then none
          else some ((digitsToNat p.1 : Rat) / (10 : Rat) ^ p.1.length, p.2)
        | _ => some (0, rest1)
      match fracPart with
      | none => none
      | some (fr, rest2) =>
        let expPart : Option (Rat × List Char) :=
          match rest2 with
          | e :: r3 =>
            if e = 'e' ∨ e = 'E' then
              let se : Bool × List Char :=
                match r3 with
                | '+' :: r4 => (false, r4)
                | '-' :: r4 => (true, r4)
                | _ => (false, r3)
              let p := se.2.span Char.isDigit
              if p.1.isEmpty then none
              else if se.1 then some ((1 : Rat) / (10 : Rat) ^ digitsToNat p.1, p.2)
              else some ((10 : Rat) ^ digitsToNat p.1, p.2)
            else some (1, rest2)
          | [] => some (1, [])
        match expPart with
        | none => none
        | some (ex, rest3) =>
          let mag := ((ip : Rat) + fr) * ex
          some (if neg then -mag else mag, rest3)

def expectLit (s lit : List Char) : Option (List Char) :=
  if startsWithL s lit then some (s.drop lit.length) else none

mutual

/-- Parse one JSON value (after skipping leading whitespace). -/
def parseJValue : Nat → List Char → Option (Json × List Char)
  | 0, _ => none
  | fuel + 1, s =>
    match skipJsonWs s with
    | [] => none
    | c :: r =>
      if c = '{' then
        match skipJsonWs r with
        | '}' :: r2 => some (Json.obj [], r2)
        | _ => (parseJMembers fuel (skipJsonWs r) []).map
            (fun p => (Json.obj p.1.reverse, p.2))
      else if c = '[' then
        match skipJsonWs r with
        | ']' :: r2 => some (Json.arr [], r2)
        | _ => (parseJElems fuel (skipJsonWs r) []).map
            (fun p => (Json.arr p.1.reverse, p.2))
      else if c = '"' then
        (parseJString fuel r).map (fun p => (Json.str (String.mk p.1), p.2))
      else if c = 't' then
        (expectLit (c :: r) ("true".data)).map (fun r2 => (Json.bool true, r2))
      else if c = 'f' then
        (expectLit (c :: r) ("false".data)).map (fun r2 => (Json.bool false, r2))
      else if c = 'n' then
        (expectLit (c :: r) ("null".data)).map (fun r2 => (Json.null, r2))
      else if c = '-' ∨ c.isDigit then
        (parseJNumber (c :: r)).map (fun p => (Json.num p.1, p.2))
      else none

/-- Parse the members of a JSON object, positioned at the first key. -/
def parseJMembers : Nat → List Char → List (String × Json) →
    Option (List (String × Json) × List Char)
  | 0, _, _ => none
  | fuel + 1, s, acc =>
    match s with
    | '"' :: r =>
      match parseJString fuel r with
      | none => none
      | some (key, r2) =>
        match skipJsonWs r2 with
        | ':' :: r3 =>
          match parseJValue fuel r3 with
          | none => none
          | some (v, r4) =>
            match skipJsonWs r4 with
            | ',' :: r5 => parseJMembers fuel (skipJsonWs r5) ((String.mk key, v) :: acc)
            | '}' :: r5 => some (((String.mk key, v) :: acc), r5)
            | _ => none
        | _ => none
    | _ => none

/-- Parse the elements of a JSON array, positioned at the first element. -/
def parseJElems : Nat → List Char → List Json → Option (List Json × List Char)
  | 0, _, _ => none
  | fuel + 1, s, acc =>
    match parseJValue fuel s with
    | none => none
    | some (v, r) =>
      match skipJsonWs r with
      | ',' :: r2 => parseJElems fuel r2 (v :: acc)
      | ']' :: r2 => some ((v :: acc), r2)
      | _ => none

end

/-- `JSON.parse`: parse a whole document, requiring only whitespace after
the value.  `none` models a thrown `SyntaxError`. -/
def parseJson (s : List Char) : Option Json :=
  match parseJValue (s.length + 8) s with
  | some (j, rest) => if (skipJsonWs rest).isEmpty then some j else none
  | none => none

/- Global regex replacement machinery.  Each hand-compiled pattern is a
`step` function that, at the current position, either matches (yielding the
replacement text and the remainder after the matched span) or fails.
`replaceScan` then reproduces the semantics of `String.replace` with a
global regex: scan left to right, substitute each non-overlapping match,
resume after it.  Every step below consumes at least one character when it
matches, so fuel `s.length + 1` always suffices. -/
def replaceScan (step : List Char → Option (List Char × List Char)) :
    Nat → List Char → List Char
  | 0, s => s
  | _ + 1, [] => []
  | fuel + 1, c :: cs =>
    match step (c :: cs) with
    | some (rep, rest) => rep ++ replaceScan step fuel rest
    | none => c :: replaceScan step fuel cs

/-- Literal global replacement, `s.replace(pat, rep)` with a literal
pattern (the pattern must be nonempty). -/
def replaceLit (s pat rep : List Char) : List Char :=
  replaceScan
    (fun t => if startsWithL t pat then some (rep, t.drop pat.length) else none)
    (s.length + 1) s

/-- Scanner for the lazy body of `/<\|.*?\|>/`: find the closest `|>`,
with `.` excluded from matching a line break. -/
def findPipeGt : List Char → Option (List Char)
  | '|' :: '>' :: r => some r
  | c :: r => if c = '\n' ∨ c = '\r' then none else findPipeGt r
  | [] => none

/-- One match of `/<\|.*?\|>/g` (special-token stripping). -/
def stepToken : List Char → Option (List Char × List Char)
  | '<' :: '|' :: rest => (findPipeGt rest).map (fun r => ([], r))
  | _ => none

/-- `analysisText.replace(/<\|.*?\|>/g, '')`. -/
def stripModelTokens (s : List Char) : List Char :=
  replaceScan stepToken (s.length + 1) s

def isWordChar (c : Char) : Bool :=
  c.isAlphanum || c = '_'

def isLowerWord (c : Char) : Bool :=
  ('a' ≤ c && c ≤ 'z') || c = '_'

/-- One match of `/([{,]\s*)([a-zA-Z0-9_]+)\s*:/g` replaced by `$1"$2":`
(quote unquoted object keys). -/
def stepQuoteKeys : List Char → Option (List Char × List Char)
  | [] => none
  | c :: rest =>
    if c = '{' ∨ c = ',' then
      let p1 := rest.span isJsWs
      let p2 := p1.2.span isWordChar
      if p2.1.isEmpty then none
      else
        let p3 := p2.2.span isJsWs
        match p3.2 with
        | ':' :: r4 => some (c :: p1.1 ++ '"' :: p2.1 ++ ['"', ':'], r4)
        | _ => none
    else none

/-- One match of `/,(\s*[}\]])/g` replaced by `$1` (drop trailing commas). -/
def stepTrailingComma : List Char → Option (List Char × List Char)
  | ',' :: rest =>
    let p := rest.span isJsWs
    match p.2 with
    | b :: r2 => if b = '}' ∨ b = ']' then some (p.1 ++ [b], r2) else none
    | [] => none
  | _ => none

/-- One match of `/"hasPII":\s*"([^"]+)"/g` replaced by `"hasPII": $1`
(unquote a quoted boolean). -/
def stepUnquoteHasPII (s : List Char) : Option (List Char × List Char) :=
  match expectLit s ("\"hasPII\":".data) with
  | none => none
  | some r =>
    let p := r.span isJsWs
    match p.2 with
    | '"' :: r2 =>
      let q := r2.span (fun c => !(c = '"'))
      if q.1.isEmpty then none
      else
        match q.2 with
        | '"' :: r3 => some ("\"hasPII\": ".data ++ q.1, r3)
        | _ => none
    | _ => none

/-- One match of `/"confidence":\s*"([^"]+)"/g` replaced by
`"confidence": "$1"` (normalises the spacing only). -/
def stepRequoteConfidence (s : List Char) : Option (List Char × List Char) :=
  match expectLit s ("\"confidence\":".data) with
  | none => none
  | some r =>
    let p := r.span isJsWs
    match p.2 with
    | '"' :: r2 =>
      let q := r2.span (fun c => !(c = '"'))
      if q.1.isEmpty then none
      else
        match q.2 with
        | '"' :: r3 => some ("\"confidence\": \"".data ++ q.1 ++ ['"'], r3)
        | _ => none
    | _ => none

/-- One match of `/"([a-z_]+):\s*"/g` replaced by `"$1"` (strip a colon
and spaces that leaked inside a quoted type value). -/
def stepTypeColon : List Char → Option (List Char × List Char)
  | '"' :: rest =>
    let p := rest.span isLowerWord
    if p.1.isEmpty then none
    else
      match p.2 with
      | ':' :: r2 =>
        let q := r2.span isJsWs
        match q.2 with
        | '"' :: r3 => some ('"' :: p.1 ++ ['"'], r3)
        | _ => none
      | _ => none
  | _ => none

/-- One match of `/,\s*count"/g` replaced by `,"count"` (restore a lost
opening quote on the count key). -/
def stepCountQuote : List Char → Option (List Char × List Char)
  | ',' :: rest =>
    let p := rest.span isJsWs
    match expectLit p.2 ("count\"".data) with
    | some r2 => some (",\"count\"".data, r2)
    | none => none
  | _ => none

/-- The six-stage malformed-JSON repair chain of
`PIIDetector.analyzeDescription` (source lines 121-142), applied in
source order. -/
def repairJsonText (s : List Char) : List Char :=
  let s1 := replaceScan stepQuoteKeys (s.length + 1) s
  let s2 := replaceScan stepTrailingComma (s1.length + 1) s1
  let s3 := replaceScan stepUnquoteHasPII (s2.length + 1) s2
  let s4 := replaceScan stepRequoteConfidence (s3.length + 1) s3
  let s5 := replaceScan stepTypeColon (s4.length + 1) s4
  replaceScan stepCountQuote (s5.length + 1) s5

/- Pre-parse cleaning of the raw model completion
(PIIDetector.analyzeDescription, source lines 59-76). -/

/-- Discard a reasoning trace: everything up to and including the last
`</think>`, trimming the remainder (only when the marker occurs). -/
def stripThink (s : List Char) : List Char :=
  match lastIndexOfSub s ("</think>".data) with
  | some i => jsTrim (s.drop (i + 8))
  | none => s

/-- The full cleaning chain: reasoning trace, then model control tokens,
then markdown code fences, trimming after each stage as the source does. -/
def cleanResponse (raw : List Char) : List Char :=
  let t1 := jsTrim (stripModelTokens (stripThink raw))
  jsTrim (replaceLit (replaceLit t1 ("```json".data) []) ("```".data) [])

/- Locating the JSON object inside the cleaned completion
(source lines 80-116). -/

/-- Marker words tried by approach 1, in source order. -/
def jsonMarkers : List String :=
  ["final answer:", "final:", "answer:", "result:"]

/-- Approach 1 for one marker: last occurrence of the marker in the
lowercased text, then the first-`{`-to-last-`}` span of the trimmed tail.
Lowercasing is position-preserving on the character list, so the index
found in the lowercased text is used on the original text as the source
does. -/
def tryMarker (t : List Char) (m : List Char) : Option (List Char) :=
  match lastIndexOfSub (toLowerL t) m with
  | none => none
  | some i =>
    let afterMarker := jsTrim (t.drop (i + m.length))
    match indexOfChar afterMarker '{', lastIndexOfChar afterMarker '}' with
    | some firstOpen, some lastClose =>
      if firstOpen < lastClose then
        some (substringL afterMarker firstOpen (lastClose + 1))
      else none
    | _, _ => none

def locateApproach1 (t : List Char) : Option (List Char) :=
  jsonMarkers.foldl
    (fun acc m =>
      match acc with
      | some _ => acc
      | none => tryMarker t m.data)
    none

/-- One match of `/\{[^{}]*"hasPII"[^{}]*\}/` at the current position:
a brace-free span between `{` and `}` containing the quoted key. -/
def stepObjCandidate : List Char → Option (List Char × List Char)
  | '{' :: rest =>
    let p := rest.span (fun c => !(c = '{') && !(c = '}'))
    match p.2 with
    | '}' :: r2 =>
      if containsSub p.1 ("\"hasPII\"".data) then
        some ('{' :: p.1 ++ ['}'], r2)
      else none
    | _ => none
  | _ => none

/-- All matches of `/\{[^{}]*"hasPII"[^{}]*\}/g`, left to right and
non-overlapping, as `String.match` with a global regex returns them. -/
def objCandidates : Nat → List Char → List (List Char)
  | 0, _ => []
  | _ + 1, [] => []
  | fuel + 1, c :: cs =>
    match stepObjCandidate (c :: cs) with
    | some (m, rest) => m :: objCandidates fuel rest
    | none => objCandidates fuel cs

/-- Approach 2: the last candidate object containing a quoted `"hasPII"`. -/
def locateApproach2 (t : List Char) : Option (List Char) :=
  (objCandidates (t.length + 1) t).getLast?

/-- Approach 3: the span from the first `{` to the last `}`. -/
def locateApproach3 (t : List Char) : Option (List Char) :=
  match indexOfChar t '{', lastIndexOfChar t '}' with
  | some firstOpen, some lastClose =>
    if firstOpen < lastClose then
      some (substringL t firstOpen (lastClose + 1))
    else none
  | _, _ => none

/-- The three extraction approaches in order; the first success wins.
Every produced span starts with `{`, so the emptiness test the source
performs on `jsonString` is subsumed by the option. -/
def findJsonString (t : List Char) : Option (List Char) :=
  match locateApproach1 t with
  | some js => some js
  | none =>
    match locateApproach2 t with
    | some js => some js
    | none => locateApproach3 t

/- The PIIResult record (example/src/services/PIIDetector.ts, lines 1-10).
TypeScript erases the declared field types at runtime, so `confidence`
carries the JS value actually stored (always compared against string
literals), and `types` carries the raw JS values: the cloud merge path
stores `cloudJson.types` without element validation. -/

/-- A detector-stage region ({type, coordinates}); every producer in the
sources leaves `regions` empty, but the field participates in result
equality, so it is carried. -/
structure DetRegion where
  type : String
  x : Rat
  y : Rat
  width : Rat
  height : Rat
deriving DecidableEq, Repr

/-- The canonical output record of every detector stage. -/
structure PIIResult where
  hasPII : Bool
  confidence : Json
  types : List Json
  count : Nat
  regions : List DetRegion
deriving DecidableEq, Repr

/- Normalisation of a parsed JSON value into a PIIResult
(source lines 145-214). -/

/-- Known category vocabulary used by the object-element normalisation. -/
def knownTypeNames : List String :=
  ["credit_card", "ssn", "face", "address", "email", "phone", "id_card"]

def strOfJson : Json → Option String
  | Json.str s => some s
  | _ => none

/-- `t.trim().replace(/:\s*$/, '')`: drop a trailing colon (with trailing
spaces) after trimming. -/
def stripTrailColon (s : List Char) : List Char :=
  let r := s.reverse.dropWhile isJsWs
  match r with
  | ':' :: rest => rest.reverse
  | _ => s

def normTypeStr (s : String) : String :=
  String.mk (stripTrailColon (jsTrim s.data))

def containsSubS (s pat : String) : Bool :=
  containsSub s.data pat.data

/-- `Object.values(item).flat()`: one level of array flattening. -/
def flatOne (vs : List Json) : List Json :=
  vs.flatMap (fun v =>
    match v with
    | Json.arr ys => ys
    | x => [x])

/-- Scan the (flattened) values of a non-string `types` element for
substrings of the known vocabulary, keeping the original value when
nothing matches (source lines 170-188, inner forEach). -/
def extractVals (vs : List Json) : List String :=
  (flatOne vs).filterMap (fun v =>
    match v with
    | Json.str s =>
      let lowerVal := String.mk (toLowerL s.data)
      some
        (match knownTypeNames.find?
            (fun t => containsSubS lowerVal t || containsSubS t lowerVal) with
        | some m => m
        | none => s)
    | _ => none)

/-- Category strings contributed by one element of `parsed.types` on the
object-element path: strings pass through, non-null objects and arrays are
scanned by value, everything else contributes nothing. -/
def extractFromItem : Json → List String
  | Json.str s => [s]
  | Json.null => []
  | Json.obj fs => extractVals (fs.map Prod.snd)
  | Json.arr xs => extractVals xs
  | _ => []

/-- `[...new Set(l)]`: deduplication keeping the first occurrence. -/
def jsDedupGo (acc : List String) : List String → List String
  | [] => acc
  | x :: xs => jsDedupGo (if acc.contains x then acc else acc ++ [x]) xs

def jsDedup (l : List String) : List String :=
  jsDedupGo [] l

/-- `parsed.types` when it is an array (`Array.isArray(parsed.types)`). -/
def parsedRawTypes (parsed : Json) : Option (List Json) :=
  match parsed.getField "types" with
  | some (Json.arr xs) => some xs
  | _ => none

/-- The string-element normalisation of `parsed.types`
(source lines 146-151). -/
def parsedStrTypes (parsed : Json) : List String :=
  match parsedRawTypes parsed with
  | some xs =>
    (((xs.filterMap strOfJson).map normTypeStr).filter
      (fun s => decide (0 < s.length)))
  | none => []

/-- Is the object-element path taken (`parsed.types` a nonempty array
whose first element has `typeof === "object"`)? -/
def parsedObjPath (parsed : Json) : Bool :=
  match parsedRawTypes parsed with
  | some (x :: _) => isObjectLike x
  | _ => false

/-- All category strings collected by the object-element path. -/
def parsedExtracted (parsed : Json) : List String :=
  match parsedRawTypes parsed with
  | some xs => xs.flatMap extractFromItem
  | none => []

/-- The validated-result constructor (source lines 195-214): recompute
`hasPII` from the parsed flag AND a nonempty type list, force `types`
empty when `hasPII` is false, and derive `count` from the final list. -/
def clampResult (flag : Bool) (types1 : List String) (conf : Json) : PIIResult :=
  let hasPII := flag && decide (0 < types1.length)
  let types2 := if hasPII then types1 else []
  ⟨hasPII, conf, types2.map Json.str, types2.length, []⟩

/-- `parsed.confidence || "medium"`. -/
def confidenceOf (parsed : Json) : Json :=
  match parsed.getField "confidence" with
  | some j => if jsTruthy j then j else Json.str "medium"
  | none => Json.str "medium"

/-- Turn a successfully parsed JSON value into a validated PIIResult
(source lines 145-214). -/
def normalizeParsed (parsed : Json) : PIIResult :=
  let types1 :=
    if parsedObjPath parsed then
      if 0 < (parsedExtracted parsed).length then jsDedup (parsedExtracted parsed)
      else parsedStrTypes parsed
    else parsedStrTypes parsed
  clampResult (jsonEqTrue (parsed.getField "hasPII")) types1 (confidenceOf parsed)

/- Heuristic fallback detection (PIIDetector.fallbackDetection,
source lines 237-381). -/

/-- Negation-aware occurrence test: the 30 characters preceding the first
occurrence of `term` are searched for a negation marker
(source lines 278-288). -/
def hasNegative (text term : List Char) : Bool :=
  match indexOfSub text term with
  | none => false
  | some idx =>
    let preceding := (text.take idx).drop (idx - 30)
    containsSub preceding ("no ".data) || containsSub preceding ("not ".data) ||
      containsSub preceding ("0 ".data) || containsSub preceding ("zero ".data)

/-- Match exactly `n` decimal digits, returning the remainder. -/
def matchDigits : Nat → List Char → Option (List Char)
  | 0, s => some s
  | _ + 1, [] => none
  | n + 1, c :: s => if c.isDigit then matchDigits n s else none

/-- Consume an optional `[-\s]` separator. -/
def optSep (s : List Char) : List Char :=
  match s with
  | c :: r => if c = '-' ∨ isJsWs c then r else s
  | [] => s

/-- Match `/\d{3}[-\s]?\d{2}[-\s]?\d{4}/` at the current position. -/
def ssnAt (s : List Char) : Bool :=
  match matchDigits 3 s with
  | none => false
  | some r1 =>
    match matchDigits 2 (optSep r1) with
    | none => false
    | some r2 => (matchDigits 4 (optSep r2)).isSome

/-- `/\d{3}[-\s]?\d{2}[-\s]?\d{4}/.test(s)`. -/
def ssnTest : List Char → Bool
  | [] => false
  | c :: rest => ssnAt (c :: rest) || ssnTest rest

/-- Match `/\d{4}[-\s]?\d{4}[-\s]?\d{4}[-\s]?\d{4}/` at the position. -/
def ccAt (s : List Char) : Bool :=
  match matchDigits 4 s with
  | none => false
  | some r1 =>
    match matchDigits 4 (optSep r1) with
    | none => false
    | some r2 =>
      match matchDigits 4 (optSep r2) with
      | none => false
      | some r3 => (matchDigits 4 (optSep r3)).isSome

/-- `/\d{4}[-\s]?\d{4}[-\s]?\d{4}[-\s]?\d{4}/.test(s)`. -/
def ccTest : List Char → Bool
  | [] => false
  | c :: rest => ccAt (c :: rest) || ccTest rest

/-- Explicit negative-description phrases (source lines 246-251). -/
def cleanDescPhrases : List String :=
  ["no visible text", "do not see any", "no pii", "no personal information"]

/-- Strong keywords that override a clean description
(source lines 253-262). -/
def strongKeywords : List String :=
  ["social security", "credit card", "ssn", "card number",
   "driver license", "passport", "national secretary", "secretary of state"]

/-- Does the early clean-description return fire (source lines 245-276)?
True when the description asserts there is nothing to find and no strong
keyword appears in the analysis text. -/
def fallbackShortCircuit (analysisText description : List Char) : Bool :=
  let lowerText := toLowerL analysisText
  let lowerDesc := toLowerL description
  (cleanDescPhrases.any (fun p => containsSub lowerDesc p.data)) &&
    !(strongKeywords.any (fun p => containsSub lowerText p.data))

/-- The accumulation skeleton of the keyword/pattern pass
(source lines 290-372): nine push sites in source order.  The conditions
that only read the text are abstracted as `b1`-`b9`; the guards that read
the accumulated list (`!detectedTypes.includes(...)`) stay concrete, which
lets the duplicate-freedom of the result be decided over all 2^9 cases. -/
def fallbackChain (b1 b2 b3 b4 b5 b6 b7 b8 b9 : Bool) : List String :=
  let t1 : List String := if b1 then ["ssn"] else []
  let t2 := if b2 then t1 ++ ["credit_card"] else t1
  let t3 := if !(t2.contains "credit_card") && b3 then t2 ++ ["credit_card"] else t2
  let t4 := if !(t3.contains "ssn") && b4 then t3 ++ ["ssn"] else t3
  let t5 := if b5 then t4 ++ ["face"] else t4
  let t6 := if b6 then t5 ++ ["address"] else t5
  let t7 := if b7 then t6 ++ ["email"] else t6
  let t8 := if b8 then t7 ++ ["phone"] else t7
  if b9 && !(t8.contains "ssn") then t8 ++ ["id_card"] else t8

/-- The categories detected by the keyword/pattern pass, with each text
condition transcribed from the source:
pattern SSN, pattern credit card, keyword credit card, keyword SSN,
face (with surface/interface/nature disambiguation), address (not IP),
email, phone (not microphone), and ID card (not double-counting SSN). -/
def fallbackTypes (analysisText description : List Char) : List String :=
  let lowerText := toLowerL analysisText
  let lowerDesc := toLowerL description
  fallbackChain
    (ssnTest description || ssnTest analysisText)
    (ccTest description || ccTest analysisText)
    ((containsSub lowerText ("credit card".data) ||
        containsSub lowerText ("card number".data) ||
        containsSub lowerText ("visa".data) ||
        containsSub lowerText ("mastercard".data)) &&
      !(hasNegative lowerText ("credit card".data)) &&
      !(hasNegative lowerText ("card number".data)))
    ((containsSub lowerText ("ssn".data) ||
        containsSub lowerText ("social security".data) ||
        containsSub lowerText ("sociat seourity".data) ||
        containsSub lowerText ("national secretary".data) ||
        containsSub lowerText ("secretary of state".data) ||
        containsSub lowerText ("passport".data)) &&
      !(hasNegative lowerText ("ssn".data)) &&
      !(hasNegative lowerText ("social security".data)) &&
      !(hasNegative lowerText ("passport".data)))
    (containsSub lowerText ("face".data) &&
      !(hasNegative lowerText ("face".data)) &&
      !(containsSub lowerText ("surface".data)) &&
      !(containsSub lowerText ("interface".data)) &&
      !(containsSub lowerDesc ("flower".data)) &&
      !(containsSub lowerDesc ("nature".data)) &&
      !(containsSub lowerDesc ("plant".data)))
    (containsSub lowerText ("address".data) &&
      !(hasNegative lowerText ("address".data)) &&
      !(containsSub lowerText ("ip address".data)))
    (containsSub lowerText ("email".data) &&
      !(hasNegative lowerText ("email".data)))
    (containsSub lowerText ("phone".data) &&
      !(hasNegative lowerText ("phone".data)) &&
      !(containsSub lowerText ("microphone".data)))
    ((containsSub lowerText ("driver".data) &&
        containsSub lowerText ("license".data)) ||
      containsSub lowerText ("id card".data) ||
      containsSub lowerText ("government id".data))

/-- PIIDetector.fallbackDetection: the clean-description short circuit
returns a medium-confidence negative; the keyword/pattern pass returns a
low-confidence result derived from the detected category list. -/
def fallbackDetection (analysisText description : List Char) : PIIResult :=
  if fallbackShortCircuit analysisText description then
    ⟨false, Json.str "medium", [], 0, []⟩
  else
    let detected := fallbackTypes analysisText description
    ⟨decide (0 < detected.length), Json.str "low",
      detected.map Json.str, detected.length, []⟩

/- PIIDetector.analyzeDescription.  The on-device model call is an external
collaborator: its outcome is the `completion` argument (`Except.error`
models a thrown provider error, absorbed by the catch of lines 225-234). -/

/-- The error-absorbing result of the provider catch block. -/
def errorResult : PIIResult :=
  ⟨false, Json.str "error", [], 0, []⟩

/-- The JSON path of the extractor: locate a candidate object, repair it,
parse it.  `none` means the fallback runs (both the no-candidate case and
the parse-failure case call it with the same arguments). -/
def extractLocalJson (t : List Char) : Option Json :=
  (findJsonString t).bind (fun js => parseJson (repairJsonText js))

/-- PIIDetector.analyzeDescription as a function of the provider outcome
and the description. -/
def analyzeDescription (completion : Except Unit String) (description : String) :
    PIIResult :=
  match completion with
  | Except.error _ => errorResult
  | Except.ok raw =>
    let t := cleanResponse raw.data
    match extractLocalJson t with
    | some parsed => normalizeParsed parsed
    | none => fallbackDetection t description.data

/- The hybrid arbiter (example/src/services/HybridInference.ts,
HybridInference.analyze).  The local stage and the cloud stage are both
asynchronous collaborators, so `analyze` is modelled as a function of the
local result and the outcome of the cloud call: `Except.error` covers every
way the awaited cloud analysis can fail (network error, timeout, non-2xx
status, unparseable payload), all of which land in the same catch. -/

/-- `Array.isArray(cloudJson.types) ? cloudJson.types : []` — the raw JS
values are stored without further validation. -/
def cloudTypes (cloudJson : Json) : List Json :=
  match cloudJson.getField "types" with
  | some (Json.arr xs) => xs
  | _ => []

/-- The body of the cloud-escalation try block (source lines 62-95).  A
`null` payload makes the first property access throw inside the try, which
the catch turns into the unchanged local result; every other value yields
the cloud PIIResult, then the asymmetric merge. -/
def mergeCloud (localResult : PIIResult) (cloudJson : Json) : PIIResult :=
  match cloudJson with
  | Json.null => localResult
  | _ =>
    let ts := cloudTypes cloudJson
    let cloudResult : PIIResult :=
      ⟨jsonEqTrue (cloudJson.getField "hasPII"), Json.str "high", ts, ts.length, []⟩
    if cloudResult.hasPII && !localResult.hasPII then cloudResult
    else if localResult.hasPII && !cloudResult.hasPII then
      { localResult with confidence := Json.str "high" }
    else cloudResult

/-- Does the arbiter issue a cloud request?  True exactly when the
high-confidence early return does not fire and the escalation condition
of source lines 53-56 holds. -/
def escalates (localResult : PIIResult) (allowCloud : Bool) : Bool :=
  !(decide (localResult.confidence = Json.str "high")) && allowCloud &&
    (decide (localResult.confidence = Json.str "medium") ||
      decide (localResult.confidence = Json.str "low"))

/-- HybridInference.analyze as a function of the local result, the consent
flag, and the cloud outcome (consulted only when `escalates` holds). -/
def analyze (localResult : PIIResult) (allowCloud : Bool)
    (cloud : Except String Json) : PIIResult :=
  if localResult.confidence = Json.str "high" then localResult
  else if allowCloud = true ∧
      (localResult.confidence = Json.str "medium" ∨
        localResult.confidence = Json.str "low") then
    match cloud with
    | Except.ok cloudJson => mergeCloud localResult cloudJson
    | Except.error _ => localResult
  else localResult

/- The redaction region generator
(ImageRedactor.getRedactionRegions). -/

/-- A normalised redaction rectangle with its category tag. -/
structure RedactionRegion where
  x : Rat
  y : Rat
  width : Rat
  height : Rat
  type : String
deriving DecidableEq, Repr

/-- The vocabulary the comprehensive-coverage rule treats as known. -/
def knownRegionTypes : List String :=
  ["ssn", "social_security_card", "credit_card", "face",
   "address", "id_card", "email", "phone"]

/-- ImageRedactor.getRedactionRegions: one fixed region per recognised
category (email and phone share one contact-info band), plus a near-full
frame comprehensive region when an unknown category appears or at least
three categories were passed. -/
def getRedactionRegions (piiTypes : List String) : List RedactionRegion :=
  let r0 : List RedactionRegion := []
  let r1 :=
    if piiTypes.contains "ssn" || piiTypes.contains "social_security_card" then
      r0 ++ [⟨0.15, 0.3, 0.7, 0.2, "ssn"⟩]
    else r0
  let r2 :=
    if piiTypes.contains "credit_card" then
      r1 ++ [⟨0.05, 0.35, 0.9, 0.35, "credit_card"⟩]
    else r1
  let r3 :=
    if piiTypes.contains "face" then
      r2 ++ [⟨0.1, 0.1, 0.4, 0.45, "face"⟩]
    else r2
  let r4 :=
    if piiTypes.contains "address" then
      r3 ++ [⟨0.05, 0.55, 0.9, 0.25, "address"⟩]
    else r3
  let r5 :=
    if piiTypes.contains "id_card" then
      r4 ++ [⟨0.02, 0.05, 0.96, 0.9, "id_card"⟩]
    else r4
  let r6 :=
    if piiTypes.contains "email" || piiTypes.contains "phone" then
      r5 ++ [⟨0.05, 0.7, 0.9, 0.2, "contact_info"⟩]
    else r5
  let otherTypes := piiTypes.filter (fun t => !(knownRegionTypes.contains t))
  if 0 < otherTypes.length ∨ 3 ≤ piiTypes.length then
    r6 ++ [⟨0.02, 0.02, 0.96, 0.96, "comprehensive"⟩]
  else r6

/- Properties. -/

/-- The consistency invariant of the data model: `hasPII` holds exactly
when the type list is nonempty, exactly when the count is positive. -/
def piiInvariant (r : PIIResult) : Prop :=
  (r.hasPII = true ↔ r.types ≠ []) ∧ (r.hasPII = true ↔ 0 < r.count)

instance (r : PIIResult) : Decidable (piiInvariant r) := by
  unfold piiInvariant; infer_instance

/-- A cloud JSON payload whose `hasPII` flag agrees with the emptiness of
its `types` array (the shape a well-behaved cloud verifier returns). -/
def cloudConsistent (j : Json) : Prop :=
  jsonEqTrue (j.getField "hasPII") = true ↔ cloudTypes j ≠ []

instance (j : Json) : Decidable (cloudConsistent j) := by
  unfold cloudConsistent; infer_instance

/-- A cloud outcome that cannot break the invariant: any failure, a null
payload (which aborts the merge inside the try block), or a consistent
payload. -/
def cloudOutcomeConsistent : Except String Json → Prop
  | Except.ok j => j = Json.null ∨ cloudConsistent j
  | Except.error _ => True

instance (c : Except String Json) : Decidable (cloudOutcomeConsistent c) := by
  cases c <;> unfold cloudOutcomeConsistent <;> infer_instance

theorem clampResult_invariant (flag : Bool) (l : List String) (c : Json) :
    piiInvariant (clampResult flag l c) := by
  cases flag <;> cases l <;> simp [clampResult, piiInvariant]

theorem normalizeParsed_invariant (parsed : Json) :
    piiInvariant (normalizeParsed parsed) := by
  simp only [normalizeParsed]
  exact clampResult_invariant _ _ _

theorem fallbackDetection_invariant (t d : List Char) :
    piiInvariant (fallbackDetection t d) := by
  unfold fallbackDetection
  split
  · simp [piiInvariant]
  · cases h : fallbackTypes t d <;> simp [piiInvariant, h]

theorem analyzeDescription_invariant (completion : Except Unit String)
    (d : String) : piiInvariant (analyzeDescription completion d) := by
  cases completion with
  | error e => simp [analyzeDescription, errorResult, piiInvariant]
  | ok raw =>
    unfold analyzeDescription
    cases h : extractLocalJson (cleanResponse raw.data) with
    | some parsed => simpa [h] using normalizeParsed_invariant parsed
    | none => simpa [h] using fallbackDetection_invariant _ _

theorem mergeCloud_invariant (loc : PIIResult) (j : Json)
    (hloc : piiInvariant loc) (hc : j = Json.null ∨ cloudConsistent j) :
    piiInvariant (mergeCloud loc j) := by
  have hcr : cloudConsistent j →
      piiInvariant ⟨jsonEqTrue (j.getField "hasPII"), Json.str "high",
        cloudTypes j, (cloudTypes j).length, []⟩ := by
    intro hh
    refine ⟨hh, ?_⟩
    constructor
    · intro h1
      exact List.length_pos.mpr (hh.mp h1)
    · intro h2
      exact hh.mpr (List.length_pos.mp h2)
  rcases hc with rfl | hc
  · exact hloc
  · cases j with
    | null => exact hloc
    | bool b => ?_
    | num q => ?_
    | str s => ?_
    | arr xs => ?_
    | obj fs => ?_
    all_goals
      simp only [mergeCloud]
      split
      · exact hcr hc
      · split
        · exact ⟨hloc.1, hloc.2⟩
        · exact hcr hc

/-- Claim C1 (amended): the hasPII-types-count consistency invariant holds
for every result the local detector produces (JSON path, heuristic
fallback, and the error-absorbing path), and the Hybrid Arbiter preserves
it whenever the cloud outcome is a failure, a null payload, or a payload
whose hasPII flag agrees with the emptiness of its types array.  (An
inconsistent cloud payload can make the arbiter return a violating result;
see the counterexample.) -/
theorem pii_invariant_after_validation :
    (∀ (completion : Except Unit String) (d : String),
      piiInvariant (analyzeDescription completion d)) ∧
    (∀ (localResult : PIIResult) (allowCloud : Bool)
        (cloud : Except String Json),
      piiInvariant localResult → cloudOutcomeConsistent cloud →
      piiInvariant (analyze localResult allowCloud cloud)) := by
  constructor
  · exact analyzeDescription_invariant
  · intro loc ac cloud hloc hcons
    unfold analyze
    split
    · exact hloc
    · split
      · cases cloud with
        | ok j => exact mergeCloud_invariant loc j hloc hcons
        | error e => exact hloc
      · exact hloc

/-- Concrete instance for claim C1: a consistent local result, a
cloud-consistent payload, and the preserved invariant of the merged
output. -/
theorem pii_invariant_after_validation_witness :
    piiInvariant ⟨false, Json.str "medium", [], 0, []⟩ ∧
    cloudOutcomeConsistent (Except.ok
      (Json.obj [("hasPII", Json.bool true), ("types", Json.arr [Json.str "ssn"])])) ∧
    piiInvariant (analyze ⟨false, Json.str "medium", [], 0, []⟩ true
      (Except.ok (Json.obj
        [("hasPII", Json.bool true), ("types", Json.arr [Json.str "ssn"])]))) :=
  ⟨by decide, by decide,
    pii_invariant_after_validation.2 ⟨false, Json.str "medium", [], 0, []⟩ true
      (Except.ok (Json.obj
        [("hasPII", Json.bool true), ("types", Json.arr [Json.str "ssn"])]))
      (by decide) (by decide)⟩

/-- Claim C1 fails as stated: a cloud payload whose hasPII flag disagrees
with its empty types array flows through the arbiter unvalidated, yielding
a returned PIIResult with hasPII true, no types, and count zero. -/
theorem pii_invariant_cloud_violation :
    (analyze ⟨false, Json.str "medium", [], 0, []⟩ true
        (Except.ok (Json.obj [("hasPII", Json.bool true), ("types", Json.arr [])]))).hasPII
        = true ∧
    (analyze ⟨false, Json.str "medium", [], 0, []⟩ true
        (Except.ok (Json.obj [("hasPII", Json.bool true), ("types", Json.arr [])]))).types
        = [] ∧
    (analyze ⟨false, Json.str "medium", [], 0, []⟩ true
        (Except.ok (Json.obj [("hasPII", Json.bool true), ("types", Json.arr [])]))).count
        = 0 := by
  decide

/-- Claim C2: when the local result carries high confidence, the arbiter
returns it unchanged for every cloud outcome and consent flag, and the
escalation gate is closed, so no cloud request is issued. -/
theorem arbiter_trusts_high_local :
    ∀ (localResult : PIIResult) (allowCloud : Bool)
      (cloud : Except String Json),
      localResult.confidence = Json.str "high" →
      analyze localResult allowCloud cloud = localResult ∧
        escalates localResult allowCloud = false := by
  intro loc ac cloud h
  constructor
  · unfold analyze
    rw [if_pos h]
  · simp [escalates, h]

/-- Concrete instance for claim C2. -/
theorem arbiter_trusts_high_local_witness :
    (⟨true, Json.str "high", [Json.str "ssn"], 1, []⟩ : PIIResult).confidence
        = Json.str "high" ∧
    (analyze ⟨true, Json.str "high", [Json.str "ssn"], 1, []⟩ true
        (Except.ok (Json.obj [("hasPII", Json.bool false)]))
      = ⟨true, Json.str "high", [Json.str "ssn"], 1, []⟩ ∧
      escalates ⟨true, Json.str "high", [Json.str "ssn"], 1, []⟩ true = false) :=
  ⟨rfl, arbiter_trusts_high_local ⟨true, Json.str "high", [Json.str "ssn"], 1, []⟩
    true (Except.ok (Json.obj [("hasPII", Json.bool false)])) rfl⟩

/-- Claim C3: during escalation, a positive local finding is never
overridden by a cloud payload without `hasPII === true` (any non-null
payload): the arbiter returns the local fields with confidence upgraded
to high. -/
theorem arbiter_conservative_merge :
    ∀ (localResult : PIIResult) (cloudJson : Json),
      (localResult.confidence = Json.str "medium" ∨
        localResult.confidence = Json.str "low") →
      localResult.hasPII = true →
      cloudJson ≠ Json.null →
      jsonEqTrue (cloudJson.getField "hasPII") = false →
      analyze localResult true (Except.ok cloudJson) =
        { localResult with confidence := Json.str "high" } := by
  intro loc cj hm hp hn hc
  have hnh : ¬(loc.confidence = Json.str "high") := by
    rcases hm with h | h <;> rw [h] <;> simp
  unfold analyze
  rw [if_neg hnh, if_pos ⟨rfl, hm⟩]
  cases cj <;> first
    | exact absurd rfl hn
    | simp [mergeCloud, hc, hp]

/-- Concrete instance for claim C3: local found an SSN at medium
confidence, the cloud reports no PII, and the arbiter keeps the local
finding at high confidence. -/
theorem arbiter_conservative_merge_witness :
    ((⟨true, Json.str "medium", [Json.str "ssn"], 1, []⟩ : PIIResult).confidence
        = Json.str "medium" ∨
      (⟨true, Json.str "medium", [Json.str "ssn"], 1, []⟩ : PIIResult).confidence
        = Json.str "low") ∧
    (⟨true, Json.str "medium", [Json.str "ssn"], 1, []⟩ : PIIResult).hasPII = true ∧
    (Json.obj [("hasPII", Json.bool false), ("types", Json.arr [])] ≠ Json.null) ∧
    jsonEqTrue ((Json.obj [("hasPII", Json.bool false), ("types", Json.arr [])]).getField
      "hasPII") = false ∧
    analyze ⟨true, Json.str "medium", [Json.str "ssn"], 1, []⟩ true
        (Except.ok (Json.obj [("hasPII", Json.bool false), ("types", Json.arr [])])) =
      ⟨true, Json.str "high", [Json.str "ssn"], 1, []⟩ :=
  ⟨Or.inl rfl, rfl, by decide, rfl,
    arbiter_conservative_merge ⟨true, Json.str "medium", [Json.str "ssn"], 1, []⟩
      (Json.obj [("hasPII", Json.bool false), ("types", Json.arr [])])
      (Or.inl rfl) rfl (by decide) rfl⟩

/-- Claim C4: during escalation, a cloud payload with `hasPII === true`
overrides a negative local result: the arbiter returns the cloud-derived
result, with the raw cloud types, count equal to their number, and
confidence normalised to high. -/
theorem arbiter_aggressive_merge :
    ∀ (localResult : PIIResult) (cloudJson : Json),
      (localResult.confidence = Json.str "medium" ∨
        localResult.confidence = Json.str "low") →
      localResult.hasPII = false →
      jsonEqTrue (cloudJson.getField "hasPII") = true →
      analyze localResult true (Except.ok cloudJson) =
        ⟨true, Json.str "high", cloudTypes cloudJson,
          (cloudTypes cloudJson).length, []⟩ := by
  intro loc cj hm hp hc
  have hnh : ¬(loc.confidence = Json.str "high") := by
    rcases hm with h | h <;> rw [h] <;> simp
  unfold analyze
  rw [if_neg hnh, if_pos ⟨rfl, hm⟩]
  cases cj <;> simp_all [mergeCloud, jsonEqTrue, Json.getField]

/-- Concrete instance for claim C4: local saw nothing at low confidence,
the cloud reports a face, and the arbiter adopts the cloud result. -/
theorem arbiter_aggressive_merge_witness :
    ((⟨false, Json.str "low", [], 0, []⟩ : PIIResult).confidence
        = Json.str "medium" ∨
      (⟨false, Json.str "low", [], 0, []⟩ : PIIResult).confidence
        = Json.str "low") ∧
    (⟨false, Json.str "low", [], 0, []⟩ : PIIResult).hasPII = false ∧
    jsonEqTrue ((Json.obj [("hasPII", Json.bool true),
      ("types", Json.arr [Json.str "face"])]).getField "hasPII") = true ∧
    analyze ⟨false, Json.str "low", [], 0, []⟩ true
        (Except.ok (Json.obj [("hasPII", Json.bool true),
          ("types", Json.arr [Json.str "face"])])) =
      ⟨true, Json.str "high",
        cloudTypes (Json.obj [("hasPII", Json.bool true),
          ("types", Json.arr [Json.str "face"])]),
        (cloudTypes (Json.obj [("hasPII", Json.bool true),
          ("types", Json.arr [Json.str "face"])])).length, []⟩ :=
  ⟨Or.inr rfl, rfl, rfl,
    arbiter_aggressive_merge ⟨false, Json.str "low", [], 0, []⟩
      (Json.obj [("hasPII", Json.bool true), ("types", Json.arr [Json.str "face"])])
      (Or.inr rfl) rfl rfl⟩

/-- Claim C5: whenever the cloud call fails, for any local result and any
consent flag, the arbiter returns the local result completely unchanged;
being a total function, it propagates no failure. -/
theorem arbiter_cloud_failure_falls_back :
    ∀ (localResult : PIIResult) (allowCloud : Bool) (msg : String),
      analyze localResult allowCloud (Except.error msg) = localResult := by
  intro loc ac msg
  unfold analyze
  split
  · rfl
  · split
    · rfl
    · rfl

/-- Claim C10: a local result whose confidence is unknown or error is
returned unchanged with the escalation gate closed, and the gate only ever
opens for medium or low confidence. -/
theorem arbiter_gate_medium_low_only :
    (∀ (localResult : PIIResult) (allowCloud : Bool)
        (cloud : Except String Json),
      (localResult.confidence = Json.str "unknown" ∨
        localResult.confidence = Json.str "error") →
      analyze localResult allowCloud cloud = localResult ∧
        escalates localResult allowCloud = false) ∧
    (∀ (localResult : PIIResult) (allowCloud : Bool),
      escalates localResult allowCloud = true →
      localResult.confidence = Json.str "medium" ∨
        localResult.confidence = Json.str "low") := by
  constructor
  · intro loc ac cloud h
    have h1 : ¬(loc.confidence = Json.str "high") := by
      rcases h with h | h <;> rw [h] <;> simp
    have h2 : ¬(loc.confidence = Json.str "medium" ∨
        loc.confidence = Json.str "low") := by
      rcases h with h | h <;> rw [h] <;> simp
    constructor
    · unfold analyze
      rw [if_neg h1, if_neg (fun hh => h2 hh.2)]
    · simp only [escalates]
      rcases h with h | h <;> rw [h] <;> simp
  · intro loc ac h
    simp only [escalates, Bool.and_eq_true, Bool.or_eq_true,
      decide_eq_true_eq] at h
    exact h.2

/-- Concrete instance for claim C10: the error-absorbing local result is
returned unchanged and never escalated. -/
theorem arbiter_gate_medium_low_only_witness :
    (errorResult.confidence = Json.str "unknown" ∨
      errorResult.confidence = Json.str "error") ∧
    (analyze errorResult true (Except.ok Json.null) = errorResult ∧
      escalates errorResult true = false) :=
  ⟨Or.inr rfl, arbiter_gate_medium_low_only.1 errorResult true
    (Except.ok Json.null) (Or.inr rfl)⟩

/-- The malformed completion of the extractor-robustness scenario:
a chatty preamble followed by an object with unquoted keys and a trailing
comma.  (The apostrophe of the contraction is spelled via its code.) -/
def malformedCompletion : String :=
  "Sure, here" ++ String.singleton (Char.ofNat 39) ++
    "s the analysis: \x7bhasPII: true, types: [\"ssn\", \"face\"], count: 2,\x7d"

set_option maxRecDepth 100000 in
/-- Claim C6: on the malformed completion the JSON
location-and-repair path succeeds (no fallback), and the detector returns
hasPII true with types ssn and face and count 2, for every description. -/
theorem extractor_repairs_malformed_json :
    ∀ (description : String),
      (extractLocalJson (cleanResponse malformedCompletion.data)).isSome = true ∧
      analyzeDescription (Except.ok malformedCompletion) description =
        ⟨true, Json.str "medium", [Json.str "ssn", Json.str "face"], 2, []⟩ := by
  intro d
  exact ⟨rfl, rfl⟩

/-- Claim C7 (amended): the heuristic fallback reports confidence low from
the keyword/pattern pass and confidence medium from the explicit
clean-description short circuit; it never reports high. -/
theorem fallback_confidence_tiers :
    ∀ (analysisText description : List Char),
      (fallbackDetection analysisText description).confidence =
        (if fallbackShortCircuit analysisText description then Json.str "medium"
          else Json.str "low") ∧
      (fallbackDetection analysisText description).confidence ≠ Json.str "high" := by
  intro t d
  cases h : fallbackShortCircuit t d <;> simp [fallbackDetection, h]

/-- Claim C7 fails as stated: on a clean description the fallback returns
confidence medium, not low. -/
theorem fallback_short_circuit_not_low :
    (fallbackDetection [] ("no visible text".data)).confidence = Json.str "medium" ∧
    (fallbackDetection [] ("no visible text".data)).confidence ≠ Json.str "low" :=
  ⟨rfl, by decide⟩

/-- Claim C8: the three-category call yields the three type-specific
regions plus the near-full-frame comprehensive region, and in general the
output contains a comprehensive region whenever the input has a category
outside the known vocabulary or at least three elements. -/
theorem redaction_regions_comprehensive :
    getRedactionRegions ["ssn", "credit_card", "face"] =
      [⟨0.15, 0.3, 0.7, 0.2, "ssn"⟩,
       ⟨0.05, 0.35, 0.9, 0.35, "credit_card"⟩,
       ⟨0.1, 0.1, 0.4, 0.45, "face"⟩,
       ⟨0.02, 0.02, 0.96, 0.96, "comprehensive"⟩] ∧
    ∀ (piiTypes : List String),
      ((∃ t ∈ piiTypes, knownRegionTypes.contains t = false) ∨
        3 ≤ piiTypes.length) →
      ∃ r ∈ getRedactionRegions piiTypes, r.type = "comprehensive" := by
  constructor
  · rfl
  · intro l h
    have hcond :
        0 < (l.filter (fun t => !(knownRegionTypes.contains t))).length ∨
          3 ≤ l.length := by
      rcases h with ⟨t, ht, hf⟩ | hlen
      · left
        have hm : t ∈ l.filter (fun t => !(knownRegionTypes.contains t)) :=
          List.mem_filter.mpr ⟨ht, by rw [hf]; rfl⟩
        exact List.length_pos.mpr (List.ne_nil_of_mem hm)
      · right
        exact hlen
    simp only [getRedactionRegions]
    rw [if_pos hcond]
    exact ⟨⟨0.02, 0.02, 0.96, 0.96, "comprehensive"⟩,
      List.mem_append_right _ (by simp), rfl⟩

/-- Concrete instance for claim C8: three unknown categories force the
comprehensive region. -/
theorem redaction_regions_comprehensive_witness :
    3 ≤ (["a", "b", "c"] : List String).length ∧
    ∃ r ∈ getRedactionRegions ["a", "b", "c"], r.type = "comprehensive" :=
  ⟨by decide, redaction_regions_comprehensive.2 ["a", "b", "c"] (Or.inr (by decide))⟩

theorem json_str_injective : Function.Injective Json.str := by
  intro a b h
  injection h

theorem jsDedupGo_nodup : ∀ (l acc : List String), acc.Nodup →
    (jsDedupGo acc l).Nodup := by
  intro l
  induction l with
  | nil => intro acc h; exact h
  | cons x xs ih =>
    intro acc h
    unfold jsDedupGo
    apply ih
    by_cases hc : acc.contains x
    · rw [if_pos hc]
      exact h
    · rw [if_neg hc]
      rw [List.nodup_append]
      refine ⟨h, List.nodup_singleton x, ?_⟩
      intro a ha hb
      rw [List.mem_singleton] at hb
      subst hb
      exact hc (List.elem_eq_true_of_mem ha)

theorem jsDedup_nodup (l : List String) : (jsDedup l).Nodup :=
  jsDedupGo_nodup l [] List.nodup_nil

theorem fallbackChain_nodup :
    ∀ b1 b2 b3 b4 b5 b6 b7 b8 b9 : Bool,
      (fallbackChain b1 b2 b3 b4 b5 b6 b7 b8 b9).Nodup := by
  decide

/-- Claim C9 (amended): the type list is duplicate-free for every
heuristic-fallback result and for the object-element normalisation path of
the extractor; the string-element path keeps duplicates exactly as they
appear in the parsed JSON types array (see the counterexample). -/
theorem types_dedup_object_path_and_fallback :
    (∀ (analysisText description : List Char),
      ((fallbackDetection analysisText description).types).Nodup) ∧
    (∀ (parsed : Json), parsedObjPath parsed = true →
      0 < (parsedExtracted parsed).length →
      ((normalizeParsed parsed).types).Nodup) := by
  constructor
  · intro t d
    unfold fallbackDetection
    split
    · exact List.nodup_nil
    · simp only
      apply List.Nodup.map json_str_injective
      simp only [fallbackTypes]
      exact fallbackChain_nodup _ _ _ _ _ _ _ _ _
  · intro parsed hobj hext
    simp only [normalizeParsed, clampResult, if_pos hobj, if_pos hext]
    split
    · exact List.Nodup.map json_str_injective (jsDedup_nodup _)
    · exact List.nodup_nil

/-- A syntactically valid completion whose types array repeats a
category. -/
def duplicateTypesCompletion : String :=
  "\x7b\"hasPII\": true, \"types\": [\"ssn\", \"ssn\"], \"count\": 2\x7d"

set_option maxRecDepth 100000 in
/-- Claim C9 fails as stated: the string-element normalisation keeps the
repeated ssn entry, so the returned types list has a duplicate. -/
theorem types_duplicate_string_path :
    (analyzeDescription (Except.ok duplicateTypesCompletion) "").types =
      [Json.str "ssn", Json.str "ssn"] ∧
    ¬(((analyzeDescription (Except.ok duplicateTypesCompletion) "").types).Nodup) := by
  constructor
  · rfl
  · intro h
    have h2 : ([Json.str "ssn", Json.str "ssn"] : List Json).Nodup := h
    simp at h2

/-- Concrete instance for claim C9: an object-element types array with a
repeated category is deduplicated. -/
theorem types_dedup_object_path_witness :
    parsedObjPath (Json.obj [("hasPII", Json.bool true),
      ("types", Json.arr [Json.obj [("type", Json.str "ssn")], Json.str "ssn"])])
      = true ∧
    0 < (parsedExtracted (Json.obj [("hasPII", Json.bool true),
      ("types", Json.arr [Json.obj [("type", Json.str "ssn")], Json.str "ssn"])])).length ∧
    ((normalizeParsed (Json.obj [("hasPII", Json.bool true),
      ("types", Json.arr [Json.obj [("type", Json.str "ssn")], Json.str "ssn"])])).types).Nodup :=
  ⟨rfl, by decide,
    types_dedup_object_path_and_fallback.2
      (Json.obj [("hasPII", Json.bool true),
        ("types", Json.arr [Json.obj [("type", Json.str "ssn")], Json.str "ssn"])])
      rfl (by decide)⟩

end ScreenSafe

